import Mathlib

/-!
Shallow embedding of `src/Statistics.py`, a library of spreadsheet-compatible
descriptive-statistics and simple-linear-regression functions.

Numbers are modelled as exact rationals (`ℚ`); `math.sqrt` values live in `ℝ`
via `Real.sqrt`.  Python raises an exception on division by zero, so every
division written with `/` in the source is embedded as the checked division
`pydiv` (resp. `rdiv` on `ℝ`), which returns `Err.zeroDivision` when the
denominator is zero.  Each raised `Exception` of the source is mapped to a
constructor of `Err` according to the distinct error message it carries.
-/

deriving instance DecidableEq for Except

namespace Statistics

/-- Logical error kinds of the library.  `emptyInput`, `lengthMismatch`,
`zeroVariance` and `notANumber` correspond to the explicitly raised
exceptions of the source (identified by message); `zeroDivision` is the
`ZeroDivisionError` Python itself raises on float division by zero; `domain`
is the `ValueError` of `math.sqrt` on a negative argument. -/
inductive Err where
  | emptyInput
  | lengthMismatch
  | zeroVariance
  | notANumber
  | zeroDivision
  | domain
  deriving DecidableEq, Repr

/-- Python float division: raises `ZeroDivisionError` when the denominator is
zero, otherwise returns the quotient. -/
def pydiv (a b : ℚ) : Except Err ℚ :=
  if b = 0 then .error .zeroDivision else .ok (a / b)

/-- `average(data)`: the arithmetic mean, `sum(data) / float(n)`;
raises when `n == 0`. -/
def average (data : List ℚ) : Except Err ℚ :=
  if data.length = 0 then .error .emptyInput
  else pydiv data.sum (data.length : ℚ)

/-- `avgdev(data)`: mean of absolute deviations from the mean,
`(1 / float(n)) * tot` with `tot` accumulated over `data`. -/
def avgdev (data : List ℚ) : Except Err ℚ :=
  if data.length = 0 then .error .emptyInput
  else
    match average data with
    | .error e => .error e
    | .ok mu =>
      match pydiv 1 (data.length : ℚ) with
      | .error e => .error e
      | .ok inv => .ok (inv * data.foldl (fun tot x => tot + |x - mu|) 0)

/-- `devsq(data)`: sum of squared deviations from the mean, accumulated with
a running total starting at `0.0`. -/
def devsq (data : List ℚ) : Except Err ℚ :=
  match average data with
  | .error e => .error e
  | .ok mu => .ok (data.foldl (fun tot x => tot + (x - mu) ^ 2) 0)

/-- `sumdev(array1, array2)`: sum over paired elements of the products of
deviations from the respective means; checks emptiness, then length equality. -/
def sumdev (array1 array2 : List ℚ) : Except Err ℚ :=
  if array1.length = 0 ∨ array2.length = 0 then .error .emptyInput
  else if array1.length ≠ array2.length then .error .lengthMismatch
  else
    match average array1 with
    | .error e => .error e
    | .ok mu1 =>
      match average array2 with
      | .error e => .error e
      | .ok mu2 =>
        .ok ((array1.zip array2).foldl
              (fun tot p => tot + (p.1 - mu1) * (p.2 - mu2)) 0)

/-- `covar(array1, array2)`: `sumdev(array1, array2) / float(n1)` after the
emptiness and length checks. -/
def covar (array1 array2 : List ℚ) : Except Err ℚ :=
  if array1.length = 0 ∨ array2.length = 0 then .error .emptyInput
  else if array1.length ≠ array2.length then .error .lengthMismatch
  else
    match sumdev array1 array2 with
    | .error e => .error e
    | .ok s => pydiv s (array1.length : ℚ)

/-- `variance(data, is_sample=True)`: after the emptiness check the source
computes `mu = average(data)` (unused) and `ds = devsq(data)`, then divides
`ds` by `float(n - 1)` for a sample and by `float(n)` for a population. -/
def variance (data : List ℚ) (isSample : Bool := true) : Except Err ℚ :=
  if data.length = 0 then .error .emptyInput
  else
    match average data with
    | .error e => .error e
    | .ok _mu =>
      match devsq data with
      | .error e => .error e
      | .ok ds =>
        if isSample then pydiv ds ((data.length : ℚ) - 1)
        else pydiv ds (data.length : ℚ)

/-- `var(data)`: sample variance, `variance(data, True)`. -/
def var (data : List ℚ) : Except Err ℚ :=
  variance data true

/-- `varp(data)`: population variance, `variance(data, False)`. -/
def varp (data : List ℚ) : Except Err ℚ :=
  variance data false

/-- `math.sqrt`: raises `ValueError` (a domain error) on a negative argument,
otherwise returns the nonnegative square root, a real number. -/
noncomputable def msqrt (q : ℚ) : Except Err ℝ :=
  if q < 0 then .error .domain else .ok (Real.sqrt q)

/-- `standard_deviation(data, is_sample=True)`: `math.sqrt(var(data))` for a
sample, `math.sqrt(varp(data))` for a population. -/
noncomputable def standard_deviation (data : List ℚ) (isSample : Bool := true) :
    Except Err ℝ :=
  if isSample then
    match var data with
    | .error e => .error e
    | .ok v => msqrt v
  else
    match varp data with
    | .error e => .error e
    | .ok v => msqrt v

/-- `stdev(data)`: `standard_deviation(data, True)`. -/
noncomputable def stdev (data : List ℚ) : Except Err ℝ :=
  standard_deviation data true

/-- `stdevp(data)`: `standard_deviation(data, False)`. -/
noncomputable def stdevp (data : List ℚ) : Except Err ℝ :=
  standard_deviation data false

/-- Python float division on real values (used where the source divides
quantities that came out of `math.sqrt`). -/
noncomputable def rdiv (a b : ℝ) : Except Err ℝ :=
  if b = 0 then .error .zeroDivision else .ok (a / b)

/-- `correl(array1, array2)`: after the emptiness and length checks, computes
both population standard deviations, raises if either is zero, and returns
`covar(array1, array2) / (stdev1 * stdev2)`. -/
noncomputable def correl (array1 array2 : List ℚ) : Except Err ℝ :=
  if array1.length = 0 ∨ array2.length = 0 then .error .emptyInput
  else if array1.length ≠ array2.length then .error .lengthMismatch
  else
    match stdevp array1 with
    | .error e => .error e
    | .ok s1 =>
      match stdevp array2 with
      | .error e => .error e
      | .ok s2 =>
        if s1 = 0 ∨ s2 = 0 then .error .zeroVariance
        else
          match covar array1 array2 with
          | .error e => .error e
          | .ok c => rdiv (c : ℝ) (s1 * s2)

/-- `pearson(array1, array2)`: alias for `correl`. -/
noncomputable def pearson (array1 array2 : List ℚ) : Except Err ℝ :=
  correl array1 array2

/-- `rsq(known_y, known_x)`: `correl(known_y, known_x) ** 2`. -/
noncomputable def rsq (known_y known_x : List ℚ) : Except Err ℝ :=
  match correl known_y known_x with
  | .error e => .error e
  | .ok c => .ok (c ^ 2)

/-- `slope(known_y, known_x)`: `sumdev(known_x, known_y) / devsq(known_x)`
(note the argument swap); the left operand is evaluated first. -/
def slope (known_y known_x : List ℚ) : Except Err ℚ :=
  match sumdev known_x known_y with
  | .error e => .error e
  | .ok s =>
    match devsq known_x with
    | .error e => .error e
    | .ok d => pydiv s d

/-- `intercept(known_y, known_x)`: computes `muy = average(known_y)`,
`mux = average(known_x)`, `b = slope(known_y, known_x)` in that order and
returns `muy - (b * mux)`. -/
def intercept (known_y known_x : List ℚ) : Except Err ℚ :=
  match average known_y with
  | .error e => .error e
  | .ok muy =>
    match average known_x with
    | .error e => .error e
    | .ok mux =>
      match slope known_y known_x with
      | .error e => .error e
      | .ok b => .ok (muy - b * mux)

/-- A Python scalar value as passed for the `x` argument of `forecast`:
a number, a boolean, or a string. -/
inductive PyVal where
  | num (q : ℚ)
  | boolean (b : Bool)
  | str (s : String)
  deriving DecidableEq, Repr

/-- The Python test `hasattr(x, "__int__")`: numbers and booleans (a subtype
of `int` in Python) carry an `__int__` attribute; strings do not. -/
def PyVal.hasIntAttr : PyVal → Bool
  | .num _ => true
  | .boolean _ => true
  | .str _ => false

/-- The numeric value a `PyVal` contributes to arithmetic: `True` counts
as `1` and `False` as `0` in Python arithmetic. -/
def PyVal.toRat : PyVal → ℚ
  | .num q => q
  | .boolean b => if b then 1 else 0
  | .str _ => 0

/-- `isnumber(x)`: `hasattr(x, "__int__")`. -/
def isnumber (x : PyVal) : Bool :=
  x.hasIntAttr

/-- `forecast(x, known_y, known_x)`: checks `isnumber(x)`, then that
`varp(known_x)` is nonzero, then computes `b = slope`, `a = intercept` and
returns `a + (b * x)`. -/
def forecast (x : PyVal) (known_y known_x : List ℚ) : Except Err ℚ :=
  if isnumber x = false then .error .notANumber
  else
    match varp known_x with
    | .error e => .error e
    | .ok varx =>
      if varx = 0 then .error .zeroVariance
      else
        match slope known_y known_x with
        | .error e => .error e
        | .ok b =>
          match intercept known_y known_x with
          | .error e => .error e
          | .ok a => .ok (a + b * x.toRat)

/-! ### Value-level characterizations

Closed forms of the values computed by the successful branches of the
functions above, used to state and prove properties about them. -/

/-- The arithmetic mean of a list, as a pure rational value. -/
def meanVal (l : List ℚ) : ℚ := l.sum / l.length

/-- The sum of squared deviations from the mean, as a pure rational value. -/
def devsqVal (l : List ℚ) : ℚ := (l.map fun x => (x - meanVal l) ^ 2).sum

/-- The sum of products of paired deviations, as a pure rational value. -/
def sumdevVal (l1 l2 : List ℚ) : ℚ :=
  ((l1.zip l2).map fun p => (p.1 - meanVal l1) * (p.2 - meanVal l2)).sum

theorem foldl_add_map {α : Type} (f : α → ℚ) (l : List α) (s : ℚ) :
    l.foldl (fun tot x => tot + f x) s = s + (l.map f).sum := by
  induction l generalizing s with
  | nil => simp
  | cons x xs ih => simp [List.foldl_cons, ih]; ring

theorem length_ne_zero {l : List ℚ} (h : l ≠ []) : l.length ≠ 0 :=
  fun hl => h (List.length_eq_zero.mp hl)

theorem average_eq {l : List ℚ} (h : l ≠ []) : average l = .ok (meanVal l) := by
  have hn : l.length ≠ 0 := length_ne_zero h
  simp [average, pydiv, meanVal, hn, Nat.cast_eq_zero]

theorem devsq_eq {l : List ℚ} (h : l ≠ []) : devsq l = .ok (devsqVal l) := by
  simp [devsq, average_eq h, devsqVal, foldl_add_map]

theorem sumdev_eq {l1 l2 : List ℚ} (h1 : l1 ≠ []) (h2 : l2 ≠ [])
    (hlen : l1.length = l2.length) :
    sumdev l1 l2 = .ok (sumdevVal l1 l2) := by
  have hn1 : l1.length ≠ 0 := length_ne_zero h1
  have hn2 : l2.length ≠ 0 := length_ne_zero h2
  simp [sumdev, hn1, hn2, hlen, average_eq h1, average_eq h2, sumdevVal,
    foldl_add_map]

theorem covar_eq {l1 l2 : List ℚ} (h1 : l1 ≠ []) (h2 : l2 ≠ [])
    (hlen : l1.length = l2.length) :
    covar l1 l2 = .ok (sumdevVal l1 l2 / l1.length) := by
  have hn1 : l1.length ≠ 0 := length_ne_zero h1
  have hn2 : l2.length ≠ 0 := length_ne_zero h2
  simp [covar, hn1, hn2, hlen, sumdev_eq h1 h2 hlen, pydiv, Nat.cast_eq_zero]

theorem varp_eq {l : List ℚ} (h : l ≠ []) :
    varp l = .ok (devsqVal l / l.length) := by
  have hn : l.length ≠ 0 := length_ne_zero h
  simp [varp, variance, average_eq h, devsq_eq h, pydiv, hn, Nat.cast_eq_zero]

theorem var_eq {l : List ℚ} (h : 2 ≤ l.length) :
    var l = .ok (devsqVal l / ((l.length : ℚ) - 1)) := by
  have h0 : l ≠ [] := by
    intro hl
    rw [hl] at h
    simp at h
  have h2 : (2 : ℚ) ≤ (l.length : ℚ) := by exact_mod_cast h
  have hne : ((l.length : ℚ) - 1) ≠ 0 := by
    intro hz
    rw [sub_eq_zero] at hz
    rw [hz] at h2
    norm_num at h2
  simp [var, variance, average_eq h0, devsq_eq h0, pydiv, hne,
    length_ne_zero h0]

theorem devsqVal_nonneg (l : List ℚ) : 0 ≤ devsqVal l := by
  apply List.sum_nonneg
  intro x hx
  simp only [List.mem_map] at hx
  obtain ⟨y, _, rfl⟩ := hx
  positivity

theorem le_sum_of_mem {l : List ℚ} {x : ℚ} (hx : x ∈ l)
    (h : ∀ y ∈ l, 0 ≤ y) : x ≤ l.sum := by
  induction l with
  | nil => simp at hx
  | cons a as ih =>
    have has : 0 ≤ as.sum :=
      List.sum_nonneg fun y hy => h y (List.mem_cons_of_mem _ hy)
    have ha : 0 ≤ a := h a (List.mem_cons_self _ _)
    rcases List.mem_cons.mp hx with rfl | hx'
    · simp only [List.sum_cons]
      linarith
    · have := ih hx' fun y hy => h y (List.mem_cons_of_mem _ hy)
      simp only [List.sum_cons]
      linarith

theorem devsqVal_pos {l : List ℚ} {x y : ℚ} (hx : x ∈ l) (hy : y ∈ l)
    (hxy : x ≠ y) : 0 < devsqVal l := by
  have key : ∃ z ∈ l, z ≠ meanVal l := by
    by_cases hxm : x = meanVal l
    · exact ⟨y, hy, fun hym => hxy (hxm.trans hym.symm)⟩
    · exact ⟨x, hx, hxm⟩
  obtain ⟨z, hz, hzm⟩ := key
  have hmem : (z - meanVal l) ^ 2 ∈ l.map fun w => (w - meanVal l) ^ 2 :=
    List.mem_map_of_mem _ hz
  have hpos : 0 < (z - meanVal l) ^ 2 := by
    have : z - meanVal l ≠ 0 := sub_ne_zero.mpr hzm
    positivity
  have hle : (z - meanVal l) ^ 2 ≤ devsqVal l := by
    apply le_sum_of_mem hmem
    intro w hw
    simp only [List.mem_map] at hw
    obtain ⟨u, _, rfl⟩ := hw
    positivity
  linarith

theorem zip_self_eq_map (l : List ℚ) : l.zip l = l.map fun x => (x, x) := by
  induction l with
  | nil => rfl
  | cons a as ih => simp [List.zip_cons_cons, ih]

theorem sumdevVal_self (l : List ℚ) : sumdevVal l l = devsqVal l := by
  have hfun : (fun x : ℚ => (x - meanVal l) * (x - meanVal l)) =
      fun x : ℚ => (x - meanVal l) ^ 2 := by
    funext x
    ring
  simp [sumdevVal, devsqVal, zip_self_eq_map, List.map_map, Function.comp_def,
    hfun]

theorem meanVal_const {l : List ℚ} {c : ℚ} (h : l ≠ []) (hc : ∀ v ∈ l, v = c) :
    meanVal l = c := by
  have hn : l.length ≠ 0 := length_ne_zero h
  have hsum : l.sum = l.length • c := List.sum_eq_card_nsmul l c hc
  have hcast : ((l.length : ℚ)) ≠ 0 := Nat.cast_ne_zero.mpr hn
  rw [meanVal, hsum, nsmul_eq_mul]
  exact mul_div_cancel_left₀ c hcast

theorem devsqVal_const {l : List ℚ} {c : ℚ} (h : l ≠ []) (hc : ∀ v ∈ l, v = c) :
    devsqVal l = 0 := by
  apply List.sum_eq_zero
  intro x hx
  simp only [List.mem_map] at hx
  obtain ⟨y, hy, rfl⟩ := hx
  rw [hc y hy, meanVal_const h hc]
  ring

theorem stdevp_eq {l : List ℚ} (h : l ≠ []) :
    stdevp l = .ok (Real.sqrt ((devsqVal l / l.length : ℚ) : ℝ)) := by
  have hnn : (0 : ℚ) ≤ devsqVal l / l.length :=
    div_nonneg (devsqVal_nonneg l) (Nat.cast_nonneg _)
  simp [stdevp, standard_deviation, varp_eq h, msqrt, not_lt.mpr hnn]

/-! ### The possible errors of each function -/

theorem pydiv_error {a b : ℚ} {e : Err} (h : pydiv a b = .error e) :
    e = .zeroDivision ∧ b = 0 := by
  by_cases hb : b = 0
  · simp [pydiv, hb] at h
    exact ⟨h.symm, hb⟩
  · simp [pydiv, hb] at h

theorem average_error {l : List ℚ} {e : Err} (h : average l = .error e) :
    e = .emptyInput := by
  by_cases hl : l.length = 0
  · simp [average, hl] at h
    exact h.symm
  · rw [average, if_neg hl] at h
    obtain ⟨_, hb⟩ := pydiv_error h
    exact absurd (Nat.cast_eq_zero.mp hb) hl

theorem devsq_error {l : List ℚ} {e : Err} (h : devsq l = .error e) :
    e = .emptyInput := by
  rcases eq_or_ne l [] with rfl | hl
  · simp [devsq, average] at h
    exact h.symm
  · rw [devsq_eq hl] at h
    exact absurd h (by simp)

theorem sumdev_error {l1 l2 : List ℚ} {e : Err} (h : sumdev l1 l2 = .error e) :
    e = .emptyInput ∨ e = .lengthMismatch := by
  by_cases h1 : l1.length = 0
  · left
    simp [sumdev, h1] at h
    exact h.symm
  by_cases h2 : l2.length = 0
  · left
    simp [sumdev, h2] at h
    exact h.symm
  by_cases hl : l1.length = l2.length
  · have hne1 : l1 ≠ [] := fun hh => h1 (by simp [hh])
    have hne2 : l2 ≠ [] := fun hh => h2 (by simp [hh])
    rw [sumdev_eq hne1 hne2 hl] at h
    exact absurd h (by simp)
  · right
    simp [sumdev, h1, h2, hl] at h
    exact h.symm

theorem variance_error {l : List ℚ} {b : Bool} {e : Err}
    (h : variance l b = .error e) : e = .emptyInput ∨ e = .zeroDivision := by
  rcases eq_or_ne l [] with rfl | hl
  · left
    simp [variance] at h
    exact h.symm
  · have hn := length_ne_zero hl
    right
    cases b <;>
      simp only [variance, if_neg hn, average_eq hl, devsq_eq hl,
        Bool.false_eq_true, if_false, if_true] at h <;>
      exact (pydiv_error h).1

theorem slope_error {ky kx : List ℚ} {e : Err} (h : slope ky kx = .error e) :
    e = .emptyInput ∨ e = .lengthMismatch ∨ e = .zeroDivision := by
  rcases hs : sumdev kx ky with es | s
  · simp only [slope, hs] at h
    injection h with h
    subst h
    rcases sumdev_error hs with he | he <;> simp [he]
  · rcases hd : devsq kx with ed | d
    · simp only [slope, hs, hd] at h
      injection h with h
      subst h
      simp [devsq_error hd]
    · simp only [slope, hs, hd] at h
      simp [(pydiv_error h).1]

theorem intercept_error {ky kx : List ℚ} {e : Err}
    (h : intercept ky kx = .error e) :
    e = .emptyInput ∨ e = .lengthMismatch ∨ e = .zeroDivision := by
  rcases hy : average ky with ey | muy
  · simp only [intercept, hy] at h
    injection h with h
    subst h
    simp [average_error hy]
  · rcases hx : average kx with ex | mux
    · simp only [intercept, hy, hx] at h
      injection h with h
      subst h
      simp [average_error hx]
    · rcases hb : slope ky kx with eb | b
      · simp only [intercept, hy, hx, hb] at h
        injection h with h
        subst h
        exact slope_error hb
      · simp only [intercept, hy, hx, hb] at h
        exact absurd h (by simp)

/-! ### The claims -/

/-- C1 counterexample: contrary to the claim, the unguarded zero denominators
do not degrade to a returned (infinite or NaN) value: at the single-element
sequence `[1]`, `variance([1], isSample=true)` raises a division-by-zero
error (Python `ZeroDivisionError`) instead of returning a value, and so does
`slope([2,4], [7,7])` with the constant `knownX = [7,7]`. -/
theorem C1_counterexample :
    (¬ ∃ r : ℚ, variance [1] true = .ok r) ∧
    (¬ ∃ r : ℚ, slope [2, 4] [7, 7] = .ok r) ∧
    variance [1] true = .error .zeroDivision ∧
    slope [2, 4] [7, 7] = .error .zeroDivision := by
  have h1 : variance [(1 : ℚ)] true = .error .zeroDivision := by
    norm_num [variance, average, devsq, pydiv, List.foldl]
  have h2 : slope [(2 : ℚ), 4] [7, 7] = .error .zeroDivision := by
    norm_num [slope, sumdev, devsq, average, pydiv, List.foldl, List.zip]
  refine ⟨?_, ?_, h1, h2⟩
  · rintro ⟨r, hr⟩
    rw [h1] at hr
    exact absurd hr (by simp)
  · rintro ⟨r, hr⟩
    rw [h2] at hr
    exact absurd hr (by simp)

/-- C1 (amended): unguarded zero denominators raise an unguarded
division-by-zero error (Python `ZeroDivisionError`) rather than one of the
library errors and rather than returning a value: for every single-element
sequence, `variance(data, isSample=true)` divides `devsq(data)` by zero and
raises, and for every pair of equal-length nonempty sequences where every
element of `knownX` is identical, `slope(knownY, knownX)` divides by
`devsq(knownX) = 0` and raises. -/
theorem C1_zero_denominator_raises (q : ℚ) (ky kx : List ℚ) (c : ℚ)
    (hky : ky ≠ []) (hkx : kx ≠ []) (hlen : ky.length = kx.length)
    (hconst : ∀ v ∈ kx, v = c) :
    variance [q] true = .error .zeroDivision ∧
    slope ky kx = .error .zeroDivision := by
  constructor
  · norm_num [variance, average, devsq, pydiv, List.foldl]
  · have hs := sumdev_eq hkx hky hlen.symm
    have hd := devsq_eq hkx
    have h0 : devsqVal kx = 0 := devsqVal_const hkx hconst
    simp [slope, hs, hd, h0, pydiv]

/-- C1 witness: the amended theorem applied at the concrete inputs `[3]` and
`knownY = [1,5]`, `knownX = [4,4]`. -/
theorem C1_witness :
    variance [(3 : ℚ)] true = .error .zeroDivision ∧
    slope [(1 : ℚ), 5] [4, 4] = .error .zeroDivision :=
  C1_zero_denominator_raises 3 [1, 5] [4, 4] 4 (by decide) (by decide)
    (by decide) (by decide)

/-- C2: at `knownY = [2,4,6]`, `knownX = [1,2,3]`, the slope is exactly 2,
the intercept exactly 0, and `forecast(4)` exactly 8. -/
theorem C2_regression_example :
    slope [2, 4, 6] [1, 2, 3] = .ok 2 ∧
    intercept [2, 4, 6] [1, 2, 3] = .ok 0 ∧
    forecast (.num 4) [2, 4, 6] [1, 2, 3] = .ok 8 := by
  refine ⟨?_, ?_, ?_⟩
  · norm_num [slope, sumdev, devsq, average, pydiv, List.foldl, List.zip]
  · norm_num [intercept, slope, sumdev, devsq, average, pydiv, List.foldl,
      List.zip]
  · norm_num [forecast, isnumber, PyVal.hasIntAttr, PyVal.toRat, varp,
      variance, intercept, slope, sumdev, devsq, average, pydiv, List.foldl,
      List.zip]

/-- C3: for nonempty data, the population variance is `devsq(data) / n` and
the sample variance is `devsq(data) / (n - 1)` (for n ≥ 2); concretely,
`average([1,2,3]) = 2`, `variance([1,2,3], sample) = 1` and
`variance([1,2,3], population) = 2/3`. -/
theorem C3_variance_formula (data : List ℚ) (h : data ≠ []) :
    devsq data = .ok (devsqVal data) ∧
    variance data false = .ok (devsqVal data / (data.length : ℚ)) ∧
    (2 ≤ data.length →
      variance data true = .ok (devsqVal data / ((data.length : ℚ) - 1))) ∧
    average [(1 : ℚ), 2, 3] = .ok 2 ∧
    variance [(1 : ℚ), 2, 3] true = .ok 1 ∧
    variance [(1 : ℚ), 2, 3] false = .ok (2 / 3) := by
  refine ⟨devsq_eq h, varp_eq h, fun h2 => var_eq h2, ?_, ?_, ?_⟩
  · norm_num [average, pydiv]
  · norm_num [variance, average, devsq, pydiv, List.foldl]
  · norm_num [variance, average, devsq, pydiv, List.foldl]

/-- C3 witness: the theorem applied at `data = [1,2,3]`. -/
theorem C3_witness :
    devsq [(1 : ℚ), 2, 3] = .ok (devsqVal [(1 : ℚ), 2, 3]) ∧
    variance [(1 : ℚ), 2, 3] false =
      .ok (devsqVal [(1 : ℚ), 2, 3] / (([(1 : ℚ), 2, 3].length : ℚ))) ∧
    (2 ≤ [(1 : ℚ), 2, 3].length →
      variance [(1 : ℚ), 2, 3] true =
        .ok (devsqVal [(1 : ℚ), 2, 3] /
          (([(1 : ℚ), 2, 3].length : ℚ) - 1))) ∧
    average [(1 : ℚ), 2, 3] = .ok 2 ∧
    variance [(1 : ℚ), 2, 3] true = .ok 1 ∧
    variance [(1 : ℚ), 2, 3] false = .ok (2 / 3) :=
  C3_variance_formula [1, 2, 3] (by decide)

/-- C4: for nonempty equal-length inputs, `correl` raises `ZeroVarianceError`
exactly when one of the two population standard deviations is zero, and
otherwise returns `covar(array1, array2) / (stdevp(array1) * stdevp(array2))`
with `covar = sumdev / n`. -/
theorem C4_correl_zero_stdev_guard (a1 a2 : List ℚ)
    (h1 : a1 ≠ []) (h2 : a2 ≠ []) (hlen : a1.length = a2.length) :
    ∃ s1 s2 : ℝ, stdevp a1 = .ok s1 ∧ stdevp a2 = .ok s2 ∧
      (correl a1 a2 = .error .zeroVariance ↔ s1 = 0 ∨ s2 = 0) ∧
      (s1 ≠ 0 → s2 ≠ 0 →
        ∃ c : ℚ, covar a1 a2 = .ok c ∧
          c = sumdevVal a1 a2 / (a1.length : ℚ) ∧
          correl a1 a2 = .ok ((c : ℝ) / (s1 * s2))) := by
  have hn1 : a1.length ≠ 0 := length_ne_zero h1
  have hn2 : a2.length ≠ 0 := length_ne_zero h2
  have hs1 := stdevp_eq h1
  have hs2 := stdevp_eq h2
  have hcov := covar_eq h1 h2 hlen
  set s1 : ℝ := Real.sqrt ((devsqVal a1 / (a1.length : ℚ) : ℚ) : ℝ) with hd1
  set s2 : ℝ := Real.sqrt ((devsqVal a2 / (a2.length : ℚ) : ℚ) : ℝ) with hd2
  have hguard1 : ¬(a1.length = 0 ∨ a2.length = 0) := by simp [hn1, hn2]
  have hguard2 : ¬(a1.length ≠ a2.length) := by simp [hlen]
  have hcorrel : correl a1 a2 =
      (if s1 = 0 ∨ s2 = 0 then .error .zeroVariance
       else rdiv ((sumdevVal a1 a2 / (a1.length : ℚ) : ℚ) : ℝ) (s1 * s2)) := by
    simp only [correl, if_neg hguard1, if_neg hguard2, hs1, hs2, hcov]
  refine ⟨s1, s2, hs1, hs2, ?_, ?_⟩
  · by_cases hz : s1 = 0 ∨ s2 = 0
    · rw [hcorrel, if_pos hz]
      exact iff_of_true rfl hz
    · push_neg at hz
      have hmul : s1 * s2 ≠ 0 := mul_ne_zero hz.1 hz.2
      rw [hcorrel, if_neg (by rw [not_or]; exact hz), rdiv, if_neg hmul]
      constructor
      · intro hok
        exact absurd hok (by simp)
      · intro hor
        exact absurd hor (by rw [not_or]; exact hz)
  · intro hz1 hz2
    have hmul : s1 * s2 ≠ 0 := mul_ne_zero hz1 hz2
    refine ⟨_, hcov, rfl, ?_⟩
    rw [hcorrel, if_neg (by rw [not_or]; exact ⟨hz1, hz2⟩), rdiv,
      if_neg hmul]

/-- C4 witness: the theorem applied at `array1 = [1,2]`, `array2 = [1,3]`. -/
theorem C4_witness :
    ∃ s1 s2 : ℝ, stdevp [(1 : ℚ), 2] = .ok s1 ∧ stdevp [(1 : ℚ), 3] = .ok s2 ∧
      (correl [(1 : ℚ), 2] [(1 : ℚ), 3] = .error .zeroVariance ↔
        s1 = 0 ∨ s2 = 0) ∧
      (s1 ≠ 0 → s2 ≠ 0 →
        ∃ c : ℚ, covar [(1 : ℚ), 2] [(1 : ℚ), 3] = .ok c ∧
          c = sumdevVal [(1 : ℚ), 2] [(1 : ℚ), 3] /
            (([(1 : ℚ), 2].length : ℚ)) ∧
          correl [(1 : ℚ), 2] [(1 : ℚ), 3] = .ok ((c : ℝ) / (s1 * s2))) :=
  C4_correl_zero_stdev_guard [1, 2] [1, 3] (by decide) (by decide) (by decide)

/-- C5: for every numeric scalar `x` and every pair of sequences where
`knownX` is nonempty and constant, `forecast` raises `ZeroVarianceError`
because `varp(knownX) = 0`; no condition whatsoever is placed on `knownY`
(in particular its length may differ from that of `knownX`), showing the
check precedes the slope and intercept computations. -/
theorem C5_forecast_const_knownX (x : PyVal) (ky kx : List ℚ) (c : ℚ)
    (hx : isnumber x = true) (hkx : kx ≠ []) (hconst : ∀ v ∈ kx, v = c) :
    forecast x ky kx = .error .zeroVariance := by
  have hv := varp_eq hkx
  have h0 : devsqVal kx = 0 := devsqVal_const hkx hconst
  simp [forecast, hx, hv, h0]

/-- C5 witness: `forecast(4, [1,2], [5,5,5])` raises `ZeroVarianceError`,
with `knownY` of a different length than the constant `knownX`. -/
theorem C5_witness :
    forecast (.num 4) [(1 : ℚ), 2] [5, 5, 5] = .error .zeroVariance :=
  C5_forecast_const_knownX (.num 4) [1, 2] [5, 5, 5] 5 (by decide) (by decide)
    (by decide)

/-- C6: every function that requires a non-empty input sequence raises
`EmptyInputError` when the empty sequence is supplied in any
required-sequence position (the other list argument `l` and the sample flag
`b` being arbitrary). -/
theorem C6_empty_input (l : List ℚ) (b : Bool) :
    average ([] : List ℚ) = .error .emptyInput ∧
    avgdev ([] : List ℚ) = .error .emptyInput ∧
    devsq ([] : List ℚ) = .error .emptyInput ∧
    variance [] b = .error .emptyInput ∧
    var ([] : List ℚ) = .error .emptyInput ∧
    varp ([] : List ℚ) = .error .emptyInput ∧
    standard_deviation [] b = .error .emptyInput ∧
    stdev ([] : List ℚ) = .error .emptyInput ∧
    stdevp ([] : List ℚ) = .error .emptyInput ∧
    sumdev [] l = .error .emptyInput ∧
    sumdev l [] = .error .emptyInput ∧
    covar [] l = .error .emptyInput ∧
    covar l [] = .error .emptyInput ∧
    correl [] l = .error .emptyInput ∧
    correl l [] = .error .emptyInput ∧
    pearson [] l = .error .emptyInput ∧
    pearson l [] = .error .emptyInput ∧
    rsq [] l = .error .emptyInput ∧
    rsq l [] = .error .emptyInput ∧
    slope [] l = .error .emptyInput ∧
    slope l [] = .error .emptyInput ∧
    intercept [] l = .error .emptyInput ∧
    intercept l [] = .error .emptyInput := by
  have hint : intercept l [] = .error .emptyInput := by
    cases l with
    | nil => simp [intercept, average]
    | cons a as =>
      have ha : average (a :: as) = .ok (meanVal (a :: as)) :=
        average_eq (by simp)
      have hnil : average ([] : List ℚ) = .error .emptyInput := by
        simp [average]
      simp [intercept, ha, hnil]
  refine ⟨?_, ?_, ?_, ?_, ?_, ?_, ?_, ?_, ?_, ?_, ?_, ?_, ?_, ?_, ?_, ?_,
    ?_, ?_, ?_, ?_, ?_, ?_, hint⟩
  · simp [average]
  · simp [avgdev]
  · simp [devsq, average]
  · simp [variance]
  · simp [var, variance]
  · simp [varp, variance]
  · cases b <;> simp [standard_deviation, var, varp, variance]
  · simp [stdev, standard_deviation, var, variance]
  · simp [stdevp, standard_deviation, varp, variance]
  · simp [sumdev]
  · simp [sumdev]
  · simp [covar]
  · simp [covar]
  · simp [correl]
  · simp [correl]
  · simp [pearson, correl]
  · simp [pearson, correl]
  · simp [rsq, correl]
  · simp [rsq, correl]
  · simp [slope, sumdev]
  · simp [slope, sumdev]
  · simp [intercept, average]

/-- C7: for every pair of nonempty sequences of different lengths, each of
`sumdev`, `covar`, `correl` and `slope` raises `LengthMismatchError`. -/
theorem C7_length_mismatch (a1 a2 : List ℚ) (h1 : a1 ≠ []) (h2 : a2 ≠ [])
    (hne : a1.length ≠ a2.length) :
    sumdev a1 a2 = .error .lengthMismatch ∧
    covar a1 a2 = .error .lengthMismatch ∧
    correl a1 a2 = .error .lengthMismatch ∧
    slope a1 a2 = .error .lengthMismatch := by
  have hn1 := length_ne_zero h1
  have hn2 := length_ne_zero h2
  have hne2 : a2.length ≠ a1.length := fun hh => hne hh.symm
  refine ⟨?_, ?_, ?_, ?_⟩
  · simp [sumdev, hn1, hn2, hne]
  · simp [covar, hn1, hn2, hne]
  · simp [correl, hn1, hn2, hne]
  · simp [slope, sumdev, hn1, hn2, hne2]

/-- C7 witness: the theorem applied at `[1,2]` and `[1,2,3]`. -/
theorem C7_witness :
    sumdev [(1 : ℚ), 2] [1, 2, 3] = .error .lengthMismatch ∧
    covar [(1 : ℚ), 2] [1, 2, 3] = .error .lengthMismatch ∧
    correl [(1 : ℚ), 2] [1, 2, 3] = .error .lengthMismatch ∧
    slope [(1 : ℚ), 2] [1, 2, 3] = .error .lengthMismatch :=
  C7_length_mismatch [1, 2] [1, 2, 3] (by decide) (by decide) (by decide)

/-- C8: for every nonempty sequence whose elements are not all identical,
the self-correlation `correl(a, a)` is exactly 1. -/
theorem C8_self_correl (a : List ℚ) (h : a ≠ [])
    (hnc : ∃ x ∈ a, ∃ y ∈ a, x ≠ y) :
    correl a a = .ok 1 := by
  obtain ⟨x, hx, y, hy, hxy⟩ := hnc
  have hn : a.length ≠ 0 := length_ne_zero h
  have hd : 0 < devsqVal a := devsqVal_pos hx hy hxy
  have hlen : (0 : ℚ) < (a.length : ℚ) :=
    Nat.cast_pos.mpr (Nat.pos_of_ne_zero hn)
  have hv : 0 < devsqVal a / (a.length : ℚ) := div_pos hd hlen
  have hvr : (0 : ℝ) < ((devsqVal a / (a.length : ℚ) : ℚ) : ℝ) := by
    exact_mod_cast hv
  have hs := stdevp_eq h
  have hsne : Real.sqrt ((devsqVal a / (a.length : ℚ) : ℚ) : ℝ) ≠ 0 :=
    ne_of_gt (Real.sqrt_pos.mpr hvr)
  have hcov : covar a a = .ok (devsqVal a / (a.length : ℚ)) := by
    rw [covar_eq h h rfl, sumdevVal_self]
  have hmul : Real.sqrt ((devsqVal a / (a.length : ℚ) : ℚ) : ℝ) *
      Real.sqrt ((devsqVal a / (a.length : ℚ) : ℚ) : ℝ) =
      ((devsqVal a / (a.length : ℚ) : ℚ) : ℝ) :=
    Real.mul_self_sqrt hvr.le
  have hguard3 : ¬(Real.sqrt ((devsqVal a / (a.length : ℚ) : ℚ) : ℝ) = 0 ∨
      Real.sqrt ((devsqVal a / (a.length : ℚ) : ℚ) : ℝ) = 0) :=
    fun hor => hsne (hor.elim id id)
  simp only [correl, hs]
  rw [if_neg (by simp [hn]), if_neg (by simp)]
  rw [if_neg hguard3]
  simp only [hcov, rdiv, hmul]
  rw [if_neg (ne_of_gt hvr)]
  rw [div_self (ne_of_gt hvr)]

/-- C8 witness: the theorem applied at `a = [1,2]`. -/
theorem C8_witness : correl [(1 : ℚ), 2] [(1 : ℚ), 2] = .ok 1 :=
  C8_self_correl [1, 2] (by decide) (by decide)

/-- C9: in `sumdev`, `covar` and `correl` the emptiness check precedes the
length-mismatch check: when at least one input is empty and the lengths also
differ, the raised error is `EmptyInputError`, not `LengthMismatchError`. -/
theorem C9_empty_checked_first (a1 a2 : List ℚ)
    (hempty : a1 = [] ∨ a2 = []) (hne : a1.length ≠ a2.length) :
    sumdev a1 a2 = .error .emptyInput ∧
    covar a1 a2 = .error .emptyInput ∧
    correl a1 a2 = .error .emptyInput := by
  rcases hempty with rfl | rfl <;>
    exact ⟨by simp [sumdev], by simp [covar], by simp [correl]⟩

/-- C9 witness: the theorem applied at `[]` and `[1,2]`. -/
theorem C9_witness :
    sumdev [] [(1 : ℚ), 2] = .error .emptyInput ∧
    covar [] [(1 : ℚ), 2] = .error .emptyInput ∧
    correl [] [(1 : ℚ), 2] = .error .emptyInput :=
  C9_empty_checked_first [] [1, 2] (by decide) (by decide)

/-- C10: `isnumber` accepts exactly the values carrying an `__int__`
attribute, so `forecast` rejects strings with `NotANumberError` but accepts
booleans as the scalar `x`; concretely `forecast(True, [2,4,6], [1,2,3])`
computes `intercept + slope * 1 = 2` instead of raising. -/
theorem C10_isnumber_int_attr (s : String) (b : Bool) (ky kx : List ℚ) :
    (∀ x : PyVal, isnumber x = x.hasIntAttr) ∧
    isnumber (.str s) = false ∧
    isnumber (.boolean b) = true ∧
    (∀ q : ℚ, isnumber (.num q) = true) ∧
    forecast (.str s) ky kx = .error .notANumber ∧
    forecast (.boolean b) ky kx ≠ .error .notANumber ∧
    forecast (.boolean true) [2, 4, 6] [1, 2, 3] = .ok 2 := by
  refine ⟨fun x => rfl, rfl, rfl, fun q => rfl, ?_, ?_, ?_⟩
  · simp [forecast, isnumber, PyVal.hasIntAttr]
  · intro hcon
    rcases hvp : varp kx with ev | vx
    · simp [forecast, isnumber, PyVal.hasIntAttr, hvp] at hcon
      rcases variance_error hvp with he | he <;> simp [he] at hcon
    · by_cases hz : vx = 0
      · simp [forecast, isnumber, PyVal.hasIntAttr, hvp, hz] at hcon
      · rcases hsl : slope ky kx with eb | bb
        · simp [forecast, isnumber, PyVal.hasIntAttr, hvp, hz, hsl] at hcon
          rcases slope_error hsl with he | he | he <;> simp [he] at hcon
        · rcases hic : intercept ky kx with ei | ai
          · simp [forecast, isnumber, PyVal.hasIntAttr, hvp, hz, hsl, hic]
              at hcon
            rcases intercept_error hic with he | he | he <;>
              simp [he] at hcon
          · simp [forecast, isnumber, PyVal.hasIntAttr, hvp, hz, hsl, hic]
              at hcon
  · norm_num [forecast, isnumber, PyVal.hasIntAttr, PyVal.toRat, varp,
      variance, intercept, slope, sumdev, devsq, average, pydiv, List.foldl,
      List.zip]

end Statistics
